import Mathlib

/-!
Verification of the build pipeline in `tools/build.py` (aseprite-dmi).

The script is shallowly embedded: the argument parse, platform profile,
artifact-path computation, and the archive assembler are translated into
pure Lean functions.  The filesystem is modelled explicitly:

* `SourceTree` holds the external inputs the script reads: contents of
  `package.json`, `LICENSE`, the `lua54` runtime binary at the repository
  root, the `scripts/` tree (relative paths with contents), and the files
  under `lib/target/` as they stand when the artifact locator runs (for the
  non-skip modes this includes whatever `cargo build` wrote, since the
  compiler is an external collaborator).
* `DistDir` is the state of the `dist/` output directory: a list of
  (path components relative to `dist/`, file data) pairs; `Option DistDir`
  with `none` meaning `dist/` does not exist.
* A zip archive's bytes are abstracted as its entry list
  (`FileData.zipData`), so "byte-for-byte copy" is equality of `FileData`.

Paths are component lists.  A raw path string (such as the computed
`TARGET`) is normalised by `splitPath`, which splits on `/` and, on the
Windows family, also on `\x5c` — mirroring how the operating system
resolves the string handed to `os.path.exists`.
-/

def EXTENSION_NAME : String := "aseprite-dmi"

def LIBRARY_NAME : String := "dmi"

/-- Result of the argument parse: the `TARGET` and `SKIP` globals set by
the top of `build.py`. -/
structure ModeResult where
  target : String
  skip : Bool
deriving DecidableEq

/-- `args.index("--ci")` followed by `args[index + 1]`: the token after the
first occurrence of `--ci`, or `none` when that occurrence is the last
element (Python's `IndexError`). -/
def ciTargetName : List String → Option String
  | [] => none
  | a :: rest => if a = "--ci" then rest.head? else ciTargetName rest

/-- The `TARGET` / `SKIP` resolution at the top of `build.py`:
`--release` wins; else `--ci` sets `TARGET = args[index+1] + "\x5crelease"`
(a literal backslash) and `SKIP = True`, exiting with a usage error when no
token follows; else debug.  `none` models the `sys.exit(1)` usage error. -/
def resolveArgs (args : List String) : Option ModeResult :=
  if args.contains "--release" then some ⟨"release", false⟩
  else if args.contains "--ci" then
    match ciTargetName args with
    | some name => some ⟨name ++ "\\release", true⟩
    | none => none
  else some ⟨"debug", false⟩

/-- `library_extension` in `build.py`: `.dll` on the Windows family
(`sys.platform.startswith('win')`), `.so` otherwise. -/
def library_extension (win : Bool) : String := if win then ".dll" else ".so"

/-- `library_prefix` in `build.py`: empty on the Windows family, `lib`
otherwise. -/
def library_prefix (win : Bool) : String := if win then "" else "lib"

/-- Is `c` a path separator for the platform?  `/` everywhere; on the
Windows family the backslash as well. -/
def isSep (win : Bool) (c : Char) : Bool :=
  if win then c == '/' || c == '\\' else c == '/'

/-- Split a character list into runs delimited by `p`, accumulating the
current run in `cur`. -/
def splitRun (p : Char → Bool) (cur : String) : List Char → List String
  | [] => [cur]
  | c :: rest => if p c then cur :: splitRun p "" rest else splitRun p (cur.push c) rest

/-- Normalise a raw path string to its components, as the host OS would
when resolving it: split on the platform's separators, dropping empty
components. -/
def splitPath (win : Bool) (s : String) : List String :=
  (splitRun (isSep win) "" s.toList).filter (fun t => !(t == ""))

/-- The file name the artifact locator looks for:
`f"{LIBRARY_NAME}{library_extension}"` — note: no prefix. -/
def libraryFileName (win : Bool) : String := LIBRARY_NAME ++ library_extension win

/-- Components of `library_source = os.path.join("lib", "target", TARGET,
f"{LIBRARY_NAME}{library_extension}")`, relative to `lib/target/`. -/
def librarySourceRel (win : Bool) (target : String) : List String :=
  splitPath win target ++ [libraryFileName win]

/-- The Windows-only runtime dependency name with an explicit prefix
argument: `pfx ++ "lua54" ++ library_extension`. -/
def luaFileNameGen (pfx : String) (win : Bool) : String :=
  pfx ++ "lua54" ++ library_extension win

/-- `f"{library_prefix}lua54{library_extension}"` from `build.py`. -/
def luaFileName (win : Bool) : String :=
  luaFileNameGen ( library_prefix win) win

/-- External inputs read by the script (see module header). -/
structure SourceTree where
  packageJson : String
  license : String
  lua54 : String
  scriptsFiles : List (List String × String)
  targetFiles : List (List String × String)
deriving DecidableEq

/-- Contents of a file in `dist/`: raw bytes, or a zip archive abstracted
as its entry list (entry name components, entry bytes). -/
inductive FileData where
  | bytes (content : String)
  | zipData (entries : List (List String × String))
deriving DecidableEq

/-- The `dist/` directory: files keyed by path components relative to
`dist/`. -/
abbrev DistDir := List (List String × FileData)

/-- Look a path up in a directory listing — `os.path.exists` plus reading
the content. -/
def findFile {α : Type} (p : List String) : List (List String × α) → Option α
  | [] => none
  | e :: rest => if e.1 = p then some e.2 else findFile p rest

/-- The staging copies of `build.py` with the runtime-dependency prefix as
an explicit argument: `package.json`, `LICENSE`, the library binary, the
`lua54` binary (Windows family only), then `shutil.copytree` of `scripts/`
into `scripts/`.  Paths are relative to the staging root `dist/unzipped`. -/
def stageAllGen (pfx : String) (win : Bool) (src : SourceTree) (libContent : String) :
    List (List String × String) :=
  let s1 := [(["package.json"], src.packageJson)]
  let s2 := s1 ++ [(["LICENSE"], src.license)]
  let s3 := s2 ++ [([libraryFileName win], libContent)]
  let s4 := if win then s3 ++ [([luaFileNameGen pfx win], src.lua54)] else s3
  s4 ++ src.scriptsFiles.map (fun e => ("scripts" :: e.1, e.2))

/-- The staging tree built by `build.py` (prefix taken from the platform
profile). -/
def stageAll (win : Bool) (src : SourceTree) (libContent : String) :
    List (List String × String) :=
  stageAllGen ( library_prefix win) win src libContent

def zipFileName : String := EXTENSION_NAME ++ ".zip"

def extensionFileName : String := EXTENSION_NAME ++ ".aseprite-extension"

/-- `if os.path.exists(extension_path): os.remove(extension_path)`. -/
def removeIfExists (p : List String) (d : DistDir) : DistDir :=
  if (findFile p d).isSome then d.filter (fun e => decide (e.1 ≠ p)) else d

/-- The last two statements of `build.py`: delete the renamed-extension
file if it exists, then `shutil.copy` the zip's bytes to it.  `none`
models the unhandled exception `shutil.copy` raises when the zip is
missing (unreachable in the pipeline, which creates the zip just before). -/
def finalizeExtension (d : DistDir) : Option DistDir :=
  match findFile [zipFileName] (removeIfExists [extensionFileName] d) with
  | some z => some (removeIfExists [extensionFileName] d ++ [([extensionFileName], z)])
  | none => none

/-- The archive assembler: `if os.path.exists(dist_dir): shutil.rmtree
(dist_dir)`, `os.makedirs` (which raises `FileExistsError` — modelled as
`none` — if `dist/` still existed), the staging copies, the `os.walk` zip
write (entry names are paths relative to the staging root), and the
delete-then-copy of the renamed extension. -/
def assemble (win : Bool) (src : SourceTree) (libContent : String) (dist0 : Option DistDir) :
    Option DistDir :=
  let afterClean : Option DistDir := if dist0.isSome then none else dist0
  match afterClean with
  | some _ => none
  | none =>
    let staged := stageAll win src libContent
    let d1 : DistDir := staged.map (fun e => ("unzipped" :: e.1, FileData.bytes e.2))
    let d2 := d1 ++ [([zipFileName], FileData.zipData staged)]
    finalizeExtension d2

/-- The `dist/` contents after a successful assembly. -/
def distOf (win : Bool) (src : SourceTree) (libContent : String) : DistDir :=
  let staged := stageAll win src libContent
  (staged.map (fun e => ("unzipped" :: e.1, FileData.bytes e.2))
    ++ [([zipFileName], FileData.zipData staged)])
    ++ [([extensionFileName], FileData.zipData staged)]

/-- The four fatal errors of `build.py`, plus `fsError` for an unhandled
filesystem exception (provably unreachable in the assembler). -/
inductive BuildError where
  | usage
  | noRust
  | buildFailed
  | libNotBuilt
  | fsError
deriving DecidableEq

/-- The message printed before each `sys.exit(1)`. -/
def errorMessage : BuildError → String
  | .usage => "Error: Please provide a target name after --ci flag."
  | .noRust => "Error: Rust is not installed."
  | .buildFailed => "Error: lib build failed. Please check for errors."
  | .libNotBuilt => "Error: lib was not built. Please check for errors."
  | .fsError => "unhandled filesystem error"

/-- Observable outcome of a run: the error (if any), the final state of
`dist/`, whether the `rustc --version` query ran (the body of
`if not SKIP` was entered), and whether `cargo build` ran. -/
structure RunResult where
  error : Option BuildError
  dist : Option DistDir
  rustcChecked : Bool
  cargoRan : Bool
deriving DecidableEq

/-- Exit status of the process: `sys.exit(1)` on any error, 0 on
success. -/
def exitCode (r : RunResult) : Nat := if r.error.isSome then 1 else 0

/-- The artifact-locator check and the assembler (everything in `build.py`
after the `if not SKIP` block): `os.path.exists(library_source)` with
`sys.exit(1)` on failure, then the assembly.  `rc`, `cg` record whether
the toolchain steps had run. -/
def runFromTarget (win : Bool) (target : String) (src : SourceTree) (dist0 : Option DistDir)
    (rc cg : Bool) : RunResult :=
  match findFile (librarySourceRel win target) src.targetFiles with
  | none => ⟨some .libNotBuilt, dist0, rc, cg⟩
  | some libContent =>
    match assemble win src libContent dist0 with
    | some d => ⟨none, some d, rc, cg⟩
    | none => ⟨some .fsError, none, rc, cg⟩

/-- The whole pipeline.  `rustcInstalled` models whether
`subprocess.check_output(["rustc", "--version"])` succeeds (else
`FileNotFoundError`); `cargoOk` whether `cargo build` exits zero.  On the
skip path neither toolchain step runs. -/
def runBuild (win rustcInstalled cargoOk : Bool) (src : SourceTree) (dist0 : Option DistDir)
    (args : List String) : RunResult :=
  match resolveArgs args with
  | none => ⟨some .usage, dist0, false, false⟩
  | some m =>
    if m.skip then runFromTarget win m.target src dist0 false false
    else if rustcInstalled then
      if cargoOk then runFromTarget win m.target src dist0 true true
      else ⟨some .buildFailed, dist0, true, true⟩
    else ⟨some .noRust, dist0, true, false⟩

/-- Concrete source tree used for witnesses: a debug artifact for both
platform families and a release artifact for the Windows family. -/
def sampleSrc : SourceTree :=
  ⟨"pkgjson", "MIT", "luabin",
    [(["main.lua"], "script body")],
    [(["debug", "dmi.so"], "ELFDATA"), (["debug", "dmi.dll"], "PEDATA")]⟩

/-- Concrete source tree for the `--ci nightly` scenario: the artifact is
at `lib/target/nightly/release/dmi.so`, exactly where the spec's scenario
places it. -/
def ciSampleSrc : SourceTree :=
  ⟨"pkgjson", "MIT", "luabin",
    [(["main.lua"], "script body")],
    [(["nightly", "release", "dmi.so"], "ELFDATA")]⟩


/-! ### Lookup lemmas -/

theorem findFile_append_none {α : Type} (p : List String) (l1 l2 : List (List String × α))
    (h : findFile p l1 = none) : findFile p (l1 ++ l2) = findFile p l2 := by
  induction l1 with
  | nil => rfl
  | cons e t ih =>
    by_cases he : e.1 = p
    · simp [findFile, he] at h
    · simp only [findFile, he, if_false, List.cons_append] at h ⊢
      exact ih h

theorem findFile_append_some {α : Type} (p : List String) (l1 l2 : List (List String × α))
    (c : α) (h : findFile p l1 = some c) : findFile p (l1 ++ l2) = some c := by
  induction l1 with
  | nil => simp [findFile] at h
  | cons e t ih =>
    by_cases he : e.1 = p
    · simp only [findFile, he, if_true] at h ⊢
      simpa using h
    · simp only [findFile, he, if_false, List.cons_append] at h ⊢
      exact ih h

theorem findFile_map_cons {α β : Type} (p : List String) (a : String)
    (l : List (List String × α)) (f : α → β) (h : p.head? ≠ some a) :
    findFile p (l.map (fun e => (a :: e.1, f e.2))) = none := by
  induction l with
  | nil => rfl
  | cons e t ih =>
    simp only [List.map_cons, findFile]
    rw [if_neg, ih]
    intro hq
    exact h (by rw [← hq]; rfl)

theorem not_mem_of_findFile_none {α : Type} (p : List String) (l : List (List String × α))
    (h : findFile p l = none) : ∀ c, (p, c) ∉ l := by
  induction l with
  | nil => intro c hc; simp at hc
  | cons e t ih =>
    intro c hc
    by_cases he : e.1 = p
    · simp [findFile, he] at h
    · simp only [findFile, he, if_false] at h
      rcases List.mem_cons.mp hc with hc | hc
      · exact he (by rw [← hc])
      · exact ih h c hc

theorem findFile_mem {α : Type} (p : List String) (l : List (List String × α)) (c : α)
    (h : findFile p l = some c) : (p, c) ∈ l := by
  induction l with
  | nil => simp [findFile] at h
  | cons e t ih =>
    by_cases he : e.1 = p
    · simp only [findFile, he, if_true, Option.some.injEq] at h
      subst h
      rw [← he]
      exact List.mem_cons_self _ _
    · simp only [findFile, he, if_false] at h
      exact List.mem_cons_of_mem _ (ih h)

theorem removeIfExists_not_mem (p : List String) (d : DistDir) :
    ∀ c, (p, c) ∉ removeIfExists p d := by
  intro c
  unfold removeIfExists
  by_cases h : (findFile p d).isSome
  · rw [if_pos h]
    intro hc
    have := (List.mem_filter.mp hc).2
    simp at this
  · rw [if_neg h]
    rcases ho : findFile p d with _ | z
    · exact not_mem_of_findFile_none p d ho c
    · rw [ho] at h; simp at h

theorem removeIfExists_of_none (p : List String) (d : DistDir)
    (h : findFile p d = none) : removeIfExists p d = d := by
  unfold removeIfExists
  rw [h]
  rfl

/-! ### Assembler characterisation -/

theorem assemble_eq (win : Bool) (src : SourceTree) (lc : String) (d0 : Option DistDir) :
    assemble win src lc d0 = some (distOf win src lc) := by
  have key : assemble win src lc d0 =
      finalizeExtension ((stageAll win src lc).map
          (fun e => ("unzipped" :: e.1, FileData.bytes e.2))
        ++ [([zipFileName], FileData.zipData (stageAll win src lc))]) := by
    cases d0 <;> rfl
  have h1 : findFile [extensionFileName] ((stageAll win src lc).map
      (fun e => ("unzipped" :: e.1, FileData.bytes e.2))) = none :=
    findFile_map_cons _ _ _ _ (by decide)
  have h2 : findFile ([extensionFileName]) [([zipFileName], FileData.zipData (stageAll win src lc))] = none := by
    simp [findFile, zipFileName, extensionFileName, EXTENSION_NAME]
  have hext : findFile [extensionFileName] ((stageAll win src lc).map
      (fun e => ("unzipped" :: e.1, FileData.bytes e.2))
      ++ [([zipFileName], FileData.zipData (stageAll win src lc))]) = none := by
    rw [findFile_append_none _ _ _ h1]
    exact h2
  have h3 : findFile [zipFileName] ((stageAll win src lc).map
      (fun e => ("unzipped" :: e.1, FileData.bytes e.2))) = none :=
    findFile_map_cons _ _ _ _ (by decide)
  have hzip : findFile [zipFileName] ((stageAll win src lc).map
      (fun e => ("unzipped" :: e.1, FileData.bytes e.2))
      ++ [([zipFileName], FileData.zipData (stageAll win src lc))]) =
      some (FileData.zipData (stageAll win src lc)) := by
    rw [findFile_append_none _ _ _ h3]
    simp [findFile]
  rw [key]
  unfold finalizeExtension
  rw [removeIfExists_of_none _ _ hext, hzip]
  rfl

/-- Successful runs: the parse succeeded, the toolchain steps passed (or
were skipped), the artifact was found, and `dist/` holds exactly the
assembled contents — independently of the initial `dist/` state. -/
theorem runBuild_success (win rc cg : Bool) (src : SourceTree) (d0 : Option DistDir)
    (args : List String)
    (h : (runBuild win rc cg src d0 args).error = none) :
    ∃ m lc, resolveArgs args = some m ∧
      (m.skip = true ∨ (rc = true ∧ cg = true)) ∧
      findFile (librarySourceRel win m.target) src.targetFiles = some lc ∧
      runBuild win rc cg src d0 args = ⟨none, some (distOf win src lc), !m.skip, !m.skip⟩ := by
  rcases hr : resolveArgs args with _ | m
  · simp [runBuild, hr] at h
  · by_cases hs : m.skip = true
    · have hrun : runBuild win rc cg src d0 args =
          runFromTarget win m.target src d0 false false := by
        simp [runBuild, hr, hs]
      rcases hf : findFile (librarySourceRel win m.target) src.targetFiles with _ | lc
      · rw [hrun] at h
        simp [runFromTarget, hf] at h
      · refine ⟨m, lc, rfl, Or.inl hs, hf, ?_⟩
        rw [hrun]
        simp [runFromTarget, hf, assemble_eq, hs]
    · have hs' : m.skip = false := by simpa using hs
      cases rc with
      | false =>
        have hrun : runBuild win false cg src d0 args = ⟨some .noRust, d0, true, false⟩ := by
          simp [runBuild, hr, hs']
        rw [hrun] at h
        simp at h
      | true =>
        cases cg with
        | false =>
          have hrun : runBuild win true false src d0 args =
              ⟨some .buildFailed, d0, true, true⟩ := by
            simp [runBuild, hr, hs']
          rw [hrun] at h
          simp at h
        | true =>
          have hrun : runBuild win true true src d0 args =
              runFromTarget win m.target src d0 true true := by
            simp [runBuild, hr, hs']
          rcases hf : findFile (librarySourceRel win m.target) src.targetFiles with _ | lc
          · rw [hrun] at h
            simp [runFromTarget, hf] at h
          · refine ⟨m, lc, rfl, Or.inr ⟨rfl, rfl⟩, hf, ?_⟩
            rw [hrun]
            simp [runFromTarget, hf, assemble_eq, hs']

/-! ### Flag bookkeeping -/

theorem runFromTarget_flags (win : Bool) (t : String) (src : SourceTree) (d0 : Option DistDir)
    (rc cg : Bool) :
    (runFromTarget win t src d0 rc cg).rustcChecked = rc ∧
    (runFromTarget win t src d0 rc cg).cargoRan = cg := by
  cases hfe : findFile (librarySourceRel win t) src.targetFiles with
  | none => simp [runFromTarget, hfe]
  | some lc =>
    cases hae : assemble win src lc d0 with
    | none => simp [runFromTarget, hfe, hae]
    | some d => simp [runFromTarget, hfe, hae]

/-! ### Claims -/

/-- C1 counterexample: for `--ci X` the code sets the target directory to
`X` followed by a literal backslash and `release` (`TARGET = args[index+1]
+ "\x5crelease"`), which is not the string `X/release` the claim states. -/
theorem ciTargetUsesBackslash :
    resolveArgs ["--ci", "X"] = some ⟨"X" ++ "\\release", true⟩ ∧
    "X" ++ "\\release" ≠ "X" ++ "/release" :=
  ⟨rfl, by decide⟩

/-- C1 (amended): Mode Resolver contract.  If `--release` is present the
mode is release with skip = false; otherwise, if `--ci` is present and a
token follows its first occurrence, the mode is ci with target directory
`<name>` + backslash + `release` (path-equivalent to `<name>/release` on
the Windows family only) and skip = true; otherwise debug with skip =
false.  Skip is true exactly in the ci case, and the toolchain invoker
(the `rustc --version` query opening the `if not SKIP` block) runs if and
only if skip is false. -/
theorem modeResolverContract (args : List String) :
    ("--release" ∈ args → resolveArgs args = some ⟨"release", false⟩) ∧
    ("--release" ∉ args → "--ci" ∈ args →
      ∀ name, ciTargetName args = some name →
        resolveArgs args = some ⟨name ++ "\\release", true⟩) ∧
    ("--release" ∉ args → "--ci" ∉ args →
      resolveArgs args = some ⟨"debug", false⟩) ∧
    (∀ m, resolveArgs args = some m →
      (m.skip = true ↔ "--release" ∉ args ∧ "--ci" ∈ args)) ∧
    (∀ win rc cg src d0 m, resolveArgs args = some m →
      (runBuild win rc cg src d0 args).rustcChecked = !m.skip) := by
  refine ⟨?_, ?_, ?_, ?_, ?_⟩
  · intro hrel
    simp [resolveArgs, hrel]
  · intro hrel hci name hname
    simp [resolveArgs, hrel, hci, hname]
  · intro hrel hci
    simp [resolveArgs, hrel, hci]
  · intro m hm
    by_cases hrel : "--release" ∈ args
    · simp [resolveArgs, hrel] at hm
      subst hm
      simp [hrel]
    · by_cases hci : "--ci" ∈ args
      · cases hname : ciTargetName args with
        | none => simp [resolveArgs, hrel, hci, hname] at hm
        | some name =>
          simp [resolveArgs, hrel, hci, hname] at hm
          subst hm
          simp [hrel, hci]
      · simp [resolveArgs, hrel, hci] at hm
        subst hm
        simp [hrel, hci]
  · intro win rc cg src d0 m hm
    by_cases hs : m.skip = true
    · have hrun : runBuild win rc cg src d0 args =
          runFromTarget win m.target src d0 false false := by
        simp [runBuild, hm, hs]
      rw [hrun, (runFromTarget_flags win m.target src d0 false false).1, hs]
      rfl
    · have hs' : m.skip = false := by simpa using hs
      cases rc with
      | false =>
        have hrun : runBuild win false cg src d0 args = ⟨some .noRust, d0, true, false⟩ := by
          simp [runBuild, hm, hs']
        rw [hrun, hs']
        rfl
      | true =>
        cases cg with
        | false =>
          have hrun : runBuild win true false src d0 args =
              ⟨some .buildFailed, d0, true, true⟩ := by
            simp [runBuild, hm, hs']
          rw [hrun, hs']
          rfl
        | true =>
          have hrun : runBuild win true true src d0 args =
              runFromTarget win m.target src d0 true true := by
            simp [runBuild, hm, hs']
          rw [hrun, (runFromTarget_flags win m.target src d0 true true).1, hs']
          rfl

/-- C1 witness: the contract applied to `["--release"]` and to
`["--ci", "nightly"]`. -/
theorem modeResolverContractWitness :
    resolveArgs ["--release"] = some ⟨"release", false⟩ ∧
    resolveArgs ["--ci", "nightly"] = some ⟨"nightly" ++ "\\release", true⟩ ∧
    (runBuild false true true sampleSrc none ["--ci", "nightly"]).rustcChecked = !true :=
  ⟨(modeResolverContract ["--release"]).1 (by decide),
   (modeResolverContract ["--ci", "nightly"]).2.1 (by decide) (by decide) "nightly" rfl,
   (modeResolverContract ["--ci", "nightly"]).2.2.2.2 false true true sampleSrc none
     ⟨"nightly" ++ "\\release", true⟩ rfl⟩

/-- C2: the spec scenario `--ci nightly` on a non-Windows platform with
the artifact present at `lib/target/nightly/release/dmi.so` does NOT
produce an archive: the locator computes a path whose single directory
component is `nightly` + backslash + `release`, which does not exist, so
the run aborts with the "lib was not built" error and no `dist/`. -/
theorem ciNightlyScenarioFails :
    runBuild false true true ciSampleSrc none ["--ci", "nightly"] =
      ⟨some BuildError.libNotBuilt, none, false, false⟩ ∧
    findFile ["nightly", "release", "dmi.so"] ciSampleSrc.targetFiles = some "ELFDATA" ∧
    librarySourceRel false ("nightly" ++ "\\release") = ["nightly" ++ "\\release", "dmi.so"] ∧
    exitCode (runBuild false true true ciSampleSrc none ["--ci", "nightly"]) = 1 :=
  ⟨rfl, rfl, rfl, rfl⟩

/-- C8 counterexample: in `["--ci", "--ci"]` the token `--ci` is the last
element and `--release` is absent, yet the parse does not fail with the
usage error: `args.index("--ci")` finds the first occurrence, which has a
following token (the second `--ci`). -/
theorem ciLastTokenNoUsageError :
    (["--ci", "--ci"].getLast? = some "--ci") ∧
    ("--release" ∉ ["--ci", "--ci"]) ∧
    resolveArgs ["--ci", "--ci"] = some ⟨"--ci" ++ "\\release", true⟩ :=
  ⟨rfl, by decide, rfl⟩

/-- C8 (amended): for every argument list in which `--release` is absent,
`--ci` is present, and no token follows the first occurrence of `--ci`,
the process fails with the usage error about the missing target name and
exits non-zero; `dist/` is untouched and neither toolchain step runs. -/
theorem ciMissingTargetUsage (win rc cg : Bool) (src : SourceTree) (d0 : Option DistDir)
    (args : List String)
    (hrel : "--release" ∉ args)
    (hci : "--ci" ∈ args)
    (hlast : ciTargetName args = none) :
    runBuild win rc cg src d0 args = ⟨some BuildError.usage, d0, false, false⟩ ∧
    exitCode (runBuild win rc cg src d0 args) = 1 ∧
    errorMessage BuildError.usage = "Error: Please provide a target name after --ci flag." := by
  have hres : resolveArgs args = none := by
    simp [resolveArgs, hrel, hci, hlast]
  have hrun : runBuild win rc cg src d0 args = ⟨some BuildError.usage, d0, false, false⟩ := by
    simp [runBuild, hres]
  exact ⟨hrun, by rw [hrun]; rfl, rfl⟩

/-- C8 witness: `["--ci"]` aborts with the usage error. -/
theorem ciMissingTargetUsageWitness :
    runBuild false true true sampleSrc none ["--ci"] =
      ⟨some BuildError.usage, none, false, false⟩ ∧
    exitCode (runBuild false true true sampleSrc none ["--ci"]) = 1 ∧
    errorMessage BuildError.usage = "Error: Please provide a target name after --ci flag." :=
  ciMissingTargetUsage false true true sampleSrc none ["--ci"] (by decide) (by decide) rfl

/-- C3: whenever the run reaches the artifact-existence check (parse
succeeded; toolchain steps skipped or passed) and the computed library
path does not exist, the process prints the "lib was not built" error and
exits non-zero, and the `dist/` tree is left exactly as it was — in
particular no `dist/` directory is created. -/
theorem artifactMissingAborts (win rc cg : Bool) (src : SourceTree) (d0 : Option DistDir)
    (args : List String) (m : ModeResult)
    (hm : resolveArgs args = some m)
    (htc : m.skip = true ∨ (rc = true ∧ cg = true))
    (hmiss : findFile (librarySourceRel win m.target) src.targetFiles = none) :
    runBuild win rc cg src d0 args = ⟨some BuildError.libNotBuilt, d0, !m.skip, !m.skip⟩ ∧
    exitCode (runBuild win rc cg src d0 args) = 1 ∧
    errorMessage BuildError.libNotBuilt = "Error: lib was not built. Please check for errors." := by
  have hrun : runBuild win rc cg src d0 args =
      ⟨some BuildError.libNotBuilt, d0, !m.skip, !m.skip⟩ := by
    rcases htc with hs | ⟨hrc, hcg⟩
    · simp [runBuild, hm, hs, runFromTarget, hmiss]
    · subst hrc
      subst hcg
      by_cases hs : m.skip = true
      · simp [runBuild, hm, hs, runFromTarget, hmiss]
      · have hs' : m.skip = false := by simpa using hs
        simp [runBuild, hm, hs', runFromTarget, hmiss]
  exact ⟨hrun, by rw [hrun]; rfl, rfl⟩

/-- C3 witness: `--release` on a tree whose `lib/target/release/` holds no
`dmi.so`. -/
theorem artifactMissingAbortsWitness :
    runBuild false true true sampleSrc none ["--release"] =
      ⟨some BuildError.libNotBuilt, none, !false, !false⟩ ∧
    exitCode (runBuild false true true sampleSrc none ["--release"]) = 1 ∧
    errorMessage BuildError.libNotBuilt = "Error: lib was not built. Please check for errors." :=
  artifactMissingAborts false true true sampleSrc none ["--release"] ⟨"release", false⟩ rfl
    (Or.inr ⟨rfl, rfl⟩) rfl

/-- C9: in a non-skip mode, when `rustc` cannot be executed the run stops
with the "Rust is not installed" message and a non-zero exit, the version
query having run but no `cargo build` (`cargoRan = false`), and `dist/` is
left exactly as it was; moreover in every non-skip mode the version query
runs whatever the toolchain state. -/
theorem toolchainMissingAborts (win cg : Bool) (src : SourceTree) (d0 : Option DistDir)
    (args : List String) (m : ModeResult)
    (hm : resolveArgs args = some m) (hs : m.skip = false) :
    runBuild win false cg src d0 args = ⟨some BuildError.noRust, d0, true, false⟩ ∧
    (∀ rc, (runBuild win rc cg src d0 args).rustcChecked = true) ∧
    exitCode (runBuild win false cg src d0 args) = 1 ∧
    errorMessage BuildError.noRust = "Error: Rust is not installed." := by
  have h1 : runBuild win false cg src d0 args = ⟨some BuildError.noRust, d0, true, false⟩ := by
    simp [runBuild, hm, hs]
  refine ⟨h1, ?_, by rw [h1]; rfl, rfl⟩
  intro rc
  cases rc with
  | false => rw [h1]
  | true =>
    cases cg with
    | false =>
      have h2 : runBuild win true false src d0 args =
          ⟨some BuildError.buildFailed, d0, true, true⟩ := by
        simp [runBuild, hm, hs]
      rw [h2]
    | true =>
      have h2 : runBuild win true true src d0 args =
          runFromTarget win m.target src d0 true true := by
        simp [runBuild, hm, hs]
      rw [h2, (runFromTarget_flags win m.target src d0 true true).1]

/-- C9 witness: no flags, `rustc` absent. -/
theorem toolchainMissingAbortsWitness :
    runBuild false false true sampleSrc none [] =
      ⟨some BuildError.noRust, none, true, false⟩ ∧
    (∀ rc, (runBuild false rc true sampleSrc none []).rustcChecked = true) ∧
    exitCode (runBuild false false true sampleSrc none []) = 1 ∧
    errorMessage BuildError.noRust = "Error: Rust is not installed." :=
  toolchainMissingAborts false true sampleSrc none [] ⟨"debug", false⟩ rfl rfl

/-! ### The assembled `dist/` contents -/

theorem findFile_zip_distOf (win : Bool) (src : SourceTree) (lc : String) :
    findFile [zipFileName] (distOf win src lc) =
      some (FileData.zipData (stageAll win src lc)) := by
  have h3 : findFile [zipFileName] ((stageAll win src lc).map
      (fun e => ("unzipped" :: e.1, FileData.bytes e.2))) = none :=
    findFile_map_cons _ _ _ _ (by decide)
  have hzip : findFile [zipFileName] ((stageAll win src lc).map
      (fun e => ("unzipped" :: e.1, FileData.bytes e.2))
      ++ [([zipFileName], FileData.zipData (stageAll win src lc))]) =
      some (FileData.zipData (stageAll win src lc)) := by
    rw [findFile_append_none _ _ _ h3]
    simp [findFile]
  unfold distOf
  exact findFile_append_some _ _ _ _ hzip

theorem findFile_ext_distOf (win : Bool) (src : SourceTree) (lc : String) :
    findFile [extensionFileName] (distOf win src lc) =
      some (FileData.zipData (stageAll win src lc)) := by
  have h1 : findFile [extensionFileName] ((stageAll win src lc).map
      (fun e => ("unzipped" :: e.1, FileData.bytes e.2))) = none :=
    findFile_map_cons _ _ _ _ (by decide)
  have h2 : findFile ([extensionFileName])
      [([zipFileName], FileData.zipData (stageAll win src lc))] = none := by
    simp [findFile, zipFileName, extensionFileName, EXTENSION_NAME]
  have hext : findFile [extensionFileName] ((stageAll win src lc).map
      (fun e => ("unzipped" :: e.1, FileData.bytes e.2))
      ++ [([zipFileName], FileData.zipData (stageAll win src lc))]) = none := by
    rw [findFile_append_none _ _ _ h1]
    exact h2
  unfold distOf
  rw [findFile_append_none _ _ _ hext]
  simp [findFile]

/-- C4: the clean-before-stage invariant.  If a run succeeds from some
initial `dist/` state, then from every initial `dist/` state the run
produces the identical result — the staging directory and both artifacts
are regenerated from the inputs alone, so a second run over an unchanged
source tree succeeds with the same archive contents; moreover the
assembler's output never depends on the prior `dist/` state. -/
theorem cleanBeforeStage (win rc cg : Bool) (src : SourceTree) (args : List String)
    (d0 d1 : Option DistDir)
    (h : (runBuild win rc cg src d0 args).error = none) :
    runBuild win rc cg src d1 args = runBuild win rc cg src d0 args ∧
    (∀ lc prior, assemble win src lc prior = assemble win src lc none) := by
  obtain ⟨m, lc, hr, htc, hf, heq⟩ := runBuild_success win rc cg src d0 args h
  refine ⟨?_, fun lc0 prior => by rw [assemble_eq, assemble_eq]⟩
  rw [heq]
  rcases htc with hs | ⟨hrc, hcg⟩
  · simp [runBuild, hr, hs, runFromTarget, hf, assemble_eq]
  · subst hrc
    subst hcg
    by_cases hs : m.skip = true
    · simp [runBuild, hr, hs, runFromTarget, hf, assemble_eq]
    · have hs' : m.skip = false := by simpa using hs
      simp [runBuild, hr, hs', runFromTarget, hf, assemble_eq]

/-- C4 witness: a second run starting from the first run's `dist/` output
equals the first run. -/
theorem cleanBeforeStageWitness :
    runBuild false true true sampleSrc (runBuild false true true sampleSrc none []).dist [] =
      runBuild false true true sampleSrc none [] :=
  (cleanBeforeStage false true true sampleSrc [] none
    (runBuild false true true sampleSrc none []).dist (by decide)).1

/-- C5: after every successful run, the renamed-extension file in `dist/`
carries exactly the same bytes as the zip (equal `FileData`); and the
delete-then-copy finalisation removes any pre-existing renamed-extension
entry first, so every renamed-extension entry in its result is the zip's
content. -/
theorem extensionIsCopyOfZip :
    (∀ win rc cg src d0 args d, (runBuild win rc cg src d0 args).error = none →
      (runBuild win rc cg src d0 args).dist = some d →
      ∃ z, findFile [zipFileName] d = some z ∧ findFile [extensionFileName] d = some z) ∧
    (∀ d d' : DistDir, finalizeExtension d = some d' →
      ∀ c, ([extensionFileName], c) ∈ d' →
        findFile [zipFileName] (removeIfExists [extensionFileName] d) = some c) := by
  constructor
  · intro win rc cg src d0 args d herr hd
    obtain ⟨m, lc, hr, htc, hf, heq⟩ := runBuild_success win rc cg src d0 args herr
    rw [heq] at hd
    simp only [Option.some.injEq] at hd
    subst hd
    exact ⟨FileData.zipData (stageAll win src lc),
      findFile_zip_distOf win src lc, findFile_ext_distOf win src lc⟩
  · intro d d' hfin c hc
    unfold finalizeExtension at hfin
    cases hz : findFile [zipFileName] (removeIfExists [extensionFileName] d) with
    | none =>
      rw [hz] at hfin
      exact absurd hfin (by simp)
    | some z =>
      rw [hz] at hfin
      simp only [Option.some.injEq] at hfin
      subst hfin
      rcases List.mem_append.mp hc with h1 | h1
      · exact absurd h1 (removeIfExists_not_mem _ _ c)
      · simp only [List.mem_singleton, Prod.mk.injEq] at h1
        rw [h1.2]

/-- C5 witness: the zip and renamed-extension entries of a concrete
successful run agree. -/
theorem extensionIsCopyOfZipWitness :
    ∃ z, findFile [zipFileName] (distOf false sampleSrc "ELFDATA") = some z ∧
      findFile [extensionFileName] (distOf false sampleSrc "ELFDATA") = some z :=
  extensionIsCopyOfZip.1 false true true sampleSrc none [] (distOf false sampleSrc "ELFDATA")
    (by decide) (by decide)

theorem findFile_unzipped (q : List String) (l : List (List String × String)) :
    findFile ("unzipped" :: q) (l.map (fun e => ("unzipped" :: e.1, FileData.bytes e.2))) =
      (findFile q l).map FileData.bytes := by
  induction l with
  | nil => rfl
  | cons e t ih =>
    by_cases he : e.1 = q
    · simp [findFile, he]
    · have hne : ¬("unzipped" :: e.1 = "unzipped" :: q) := by simp [he]
      simp only [List.map_cons, findFile, he, hne, if_false]
      exact ih

theorem findFile_unzipped_distOf (win : Bool) (src : SourceTree) (lc : String)
    (q : List String) :
    findFile ("unzipped" :: q) (distOf win src lc) =
      (findFile q (stageAll win src lc)).map FileData.bytes := by
  have h1 := findFile_unzipped q (stageAll win src lc)
  unfold distOf
  cases hq : findFile q (stageAll win src lc) with
  | some c =>
    rw [hq] at h1
    rw [findFile_append_some _ _ _ _ (findFile_append_some _ _ _ _ h1)]
    rfl
  | none =>
    rw [hq] at h1
    have h2 : findFile ("unzipped" :: q) ((stageAll win src lc).map
        (fun e => ("unzipped" :: e.1, FileData.bytes e.2))
        ++ [([zipFileName], FileData.zipData (stageAll win src lc))]) = none := by
      rw [findFile_append_none _ _ _ h1]
      simp [findFile, zipFileName, EXTENSION_NAME]
    rw [findFile_append_none _ _ _ h2]
    simp [findFile, extensionFileName, EXTENSION_NAME]

theorem mem_distOf_unzipped (win : Bool) (src : SourceTree) (lc : String) (q : List String)
    (c : String) :
    ("unzipped" :: q, FileData.bytes c) ∈ distOf win src lc ↔
      (q, c) ∈ stageAll win src lc := by
  unfold distOf
  constructor
  · intro h
    rcases List.mem_append.mp h with h1 | h1
    · rcases List.mem_append.mp h1 with h2 | h2
      · rcases List.mem_map.mp h2 with ⟨e, he, heq⟩
        obtain ⟨p1, p2⟩ := e
        simp only [Prod.mk.injEq, List.cons.injEq, FileData.bytes.injEq, true_and] at heq
        rw [← heq.1, ← heq.2]
        exact he
      · simp [zipFileName, EXTENSION_NAME] at h2
    · simp [extensionFileName, EXTENSION_NAME] at h1
  · intro h
    exact List.mem_append_left _ (List.mem_append_left _
      (List.mem_map.mpr ⟨(q, c), h, rfl⟩))

/-- C6: on every successful run the produced zip's entry list mirrors the
staging tree exactly — an entry `(q, c)` is in the archive precisely when
the file `unzipped/q` with bytes `c` is in `dist/` — and every file of the
scripts asset tree appears in the archive under `scripts/<same relative
path>`. -/
theorem zipMirrorsStagingTree (win rc cg : Bool) (src : SourceTree) (d0 : Option DistDir)
    (args : List String) (d : DistDir)
    (herr : (runBuild win rc cg src d0 args).error = none)
    (hd : (runBuild win rc cg src d0 args).dist = some d) :
    ∃ es, findFile [zipFileName] d = some (FileData.zipData es) ∧
      (∀ q c, (q, c) ∈ es ↔ ("unzipped" :: q, FileData.bytes c) ∈ d) ∧
      (∀ e ∈ src.scriptsFiles, ("scripts" :: e.1, e.2) ∈ es) := by
  obtain ⟨m, lc, hr, htc, hf, heq⟩ := runBuild_success win rc cg src d0 args herr
  rw [heq] at hd
  simp only [Option.some.injEq] at hd
  subst hd
  refine ⟨stageAll win src lc, findFile_zip_distOf win src lc, ?_, ?_⟩
  · intro q c
    exact (mem_distOf_unzipped win src lc q c).symm
  · intro e he
    exact List.mem_append_right _ (List.mem_map.mpr ⟨e, he, rfl⟩)

/-- C6 witness: the archive of a concrete successful run contains the
script file under `scripts/main.lua`. -/
theorem zipMirrorsStagingTreeWitness :
    ∃ es, findFile [zipFileName] (distOf false sampleSrc "ELFDATA") =
        some (FileData.zipData es) ∧
      (∀ q c, (q, c) ∈ es ↔
        ("unzipped" :: q, FileData.bytes c) ∈ distOf false sampleSrc "ELFDATA") ∧
      (∀ e ∈ sampleSrc.scriptsFiles, ("scripts" :: e.1, e.2) ∈ es) :=
  zipMirrorsStagingTree false true true sampleSrc none [] (distOf false sampleSrc "ELFDATA")
    (by decide) (by decide)

theorem stageAll_true_lua (src : SourceTree) (lc : String) :
    findFile ["lua54.dll"] (stageAll true src lc) = some src.lua54 := by
  simp [stageAll, stageAllGen, findFile, libraryFileName, LIBRARY_NAME,
    library_extension, luaFileNameGen, library_prefix]

theorem stageAll_true_lua_mem (src : SourceTree) (lc : String) :
    (["lua54.dll"], src.lua54) ∈ stageAll true src lc := by
  simp [stageAll, stageAllGen, luaFileNameGen, library_prefix, library_extension]

theorem stageAll_false_no_lua (src : SourceTree) (lc : String) (c : String) :
    (["liblua54.so"], c) ∉ stageAll false src lc := by
  intro h
  simp [stageAll, stageAllGen, libraryFileName, LIBRARY_NAME, library_extension] at h

theorem distOf_false_no_lua (src : SourceTree) (lc : String) (c : FileData) :
    ("unzipped" :: ["liblua54.so"], c) ∉ distOf false src lc := by
  intro h
  unfold distOf at h
  rcases List.mem_append.mp h with h1 | h1
  · rcases List.mem_append.mp h1 with h2 | h2
    · rcases List.mem_map.mp h2 with ⟨e, he, hq⟩
      obtain ⟨p1, p2⟩ := e
      simp at hq
      exact stageAll_false_no_lua src lc p2 (hq.1 ▸ he)
    · simp [zipFileName, EXTENSION_NAME] at h2
  · simp [extensionFileName, EXTENSION_NAME] at h1

/-- C7: the runtime dependency binary is staged and archived exactly on
the Windows family.  Its name is `lua54.dll` there (prefix empty) and
would be `liblua54.so` elsewhere; after a successful run, on the Windows
family the staging tree holds it at the staging root and the archive
contains it, and on any other platform no file of that name is at the
staging root nor among the archive entries. -/
theorem lua54WindowsOnly (win rc cg : Bool) (src : SourceTree) (d0 : Option DistDir)
    (args : List String) (d : DistDir)
    (herr : (runBuild win rc cg src d0 args).error = none)
    (hd : (runBuild win rc cg src d0 args).dist = some d) :
    luaFileName true = "lua54.dll" ∧
    luaFileName false = "liblua54.so" ∧
    (win = true →
      findFile ["unzipped", "lua54.dll"] d = some (FileData.bytes src.lua54) ∧
      ∃ es, findFile [zipFileName] d = some (FileData.zipData es) ∧
        (["lua54.dll"], src.lua54) ∈ es) ∧
    (win = false →
      (∀ c, ("unzipped" :: ["liblua54.so"], c) ∉ d) ∧
      (∀ es c, findFile [zipFileName] d = some (FileData.zipData es) →
        (["liblua54.so"], c) ∉ es)) := by
  obtain ⟨m, lc, hr, htc, hf, heq⟩ := runBuild_success win rc cg src d0 args herr
  rw [heq] at hd
  simp only [Option.some.injEq] at hd
  subst hd
  refine ⟨rfl, rfl, ?_, ?_⟩
  · intro hw
    subst hw
    constructor
    · have hu := findFile_unzipped_distOf true src lc ["lua54.dll"]
      rw [stageAll_true_lua src lc] at hu
      exact hu
    · exact ⟨stageAll true src lc, findFile_zip_distOf true src lc,
        stageAll_true_lua_mem src lc⟩
  · intro hw
    subst hw
    refine ⟨fun c => distOf_false_no_lua src lc c, ?_⟩
    intro es c hes
    rw [findFile_zip_distOf false src lc] at hes
    simp only [Option.some.injEq, FileData.zipData.injEq] at hes
    subst hes
    exact stageAll_false_no_lua src lc c

/-- C7 witness: on the Windows family a concrete successful run stages
`lua54.dll` with the repository's lua binary bytes. -/
theorem lua54WindowsOnlyWitness :
    findFile ["unzipped", "lua54.dll"] (distOf true sampleSrc "PEDATA") =
      some (FileData.bytes sampleSrc.lua54) :=
  ((lua54WindowsOnly true true true sampleSrc none [] (distOf true sampleSrc "PEDATA")
    (by decide) (by decide)).2.2.1 rfl).1

/-- C10: the artifact locator searches for exactly
`<libraryName><binaryExtension>` — the platform's binary prefix is never
prepended to it; the prefix feeds only the Windows-only runtime
dependency name, where it is the empty string, so on non-Windows
platforms the computed `lib` prefix has no effect: staging with any
prefix string at all yields the same tree. -/
theorem libraryPrefixUnused :
    (∀ t, (librarySourceRel false t).getLast? = some "dmi.so") ∧
    (∀ t, (librarySourceRel true t).getLast? = some "dmi.dll") ∧
    library_prefix true = "" ∧
    luaFileName true = "lua54.dll" ∧
    (∀ p q src lc, stageAllGen p false src lc = stageAllGen q false src lc) := by
  refine ⟨?_, ?_, rfl, rfl, ?_⟩
  · intro t
    unfold librarySourceRel
    simp [libraryFileName, LIBRARY_NAME, library_extension]
  · intro t
    unfold librarySourceRel
    simp [libraryFileName, LIBRARY_NAME, library_extension]
  · intro p q src lc
    rfl
